import Mathlib

/-!
Verification of the HPC_uni-tn_24 SVD pipeline (src/SVD/main.c and the
shared-memory variant in src/Master-Worker_Island_Parallelization_serial_mpi/
src/SVD/multi_threaded.c, plus the variant with log_message).

The development shallowly embeds:
  * the sscanf("%d,%d,%lf") line parser used by fill_matrix_from_csv,
  * fill_matrix_from_csv itself (dense last-write-wins matrix building),
  * save_one_matrix / save_matrices (binary serialization of the factors),
  * the 32-bit signed element-count arithmetic (A.nrows * A.ncols) that the
    C code performs before widening to size_t,
  * the rank-0 control flow of main (log file handling, error paths,
    invocation of svds_C_dense, exit codes),
  * log_message from the multi_threaded variant.

Doubles that only pass through the pipeline unchanged are modelled as exact
values: CSV ratings as rationals (the code never computes with them, it only
stores the parsed value), and serialized matrix entries as their 64-bit IEEE
bit patterns (Nat below 2^64), since fwrite/fread copy raw bytes.
-/

/-- Counterpart of THU-numbda's `mat` struct: `int nrows, ncols; double *d;`
with the payload row-major.  The value type is a parameter because the CSV
side stores parsed ratings (rationals) while the serializer moves raw 64-bit
bit patterns. -/
structure mat (α : Type) where
  nrows : Int
  ncols : Int
  d : List α
deriving Repr, DecidableEq

deriving instance DecidableEq for Except

/-! ## sscanf("%d,%d,%lf") model

`fill_matrix_from_csv` accepts a line exactly when
`sscanf(line, "%d,%d,%lf", &uid, &mid, &rating) == 3`.  The model below
follows C scanf matching: `%d` skips whitespace, then an optional sign and
one or more digits; a literal `,` must match the very next character; `%lf`
skips whitespace and then reads a strtod-style decimal number (optional
sign, digits with an optional fractional part, an optional exponent that is
consumed only when well formed).  Hex floats, inf/nan and integer overflow
of `%d` are not modelled; no claim depends on them.  Anything after the
third conversion is ignored, as sscanf ignores it. -/

/-- C `isspace` on the characters that can appear in a text line. -/
def isSpaceC (c : Char) : Bool :=
  c = ' ' ∨ c = '\t' ∨ c = '\n' ∨ c = '\r' ∨ c = '\x0b' ∨ c = '\x0c'

/-- ASCII digit test. -/
def isDigitC (c : Char) : Bool :=
  '0' ≤ c ∧ c ≤ '9'

/-- Drop the leading whitespace, as the `%d` and `%lf` conversions do. -/
def skipSpaces : List Char → List Char
  | [] => []
  | c :: cs => if isSpaceC c then skipSpaces cs else c :: cs

/-- Consume an optional `+`/`-` sign; return the sign and the rest. -/
def scanSign : List Char → Int × List Char
  | [] => (1, [])
  | c :: cs =>
    if c = '-' then (-1, cs)
    else if c = '+' then (1, cs)
    else (1, c :: cs)

/-- Consume a maximal run of digits, folding them into `acc` and counting
them; returns (value, digit count, rest). -/
def scanDigits (acc : Nat) (n : Nat) : List Char → Nat × Nat × List Char
  | [] => (acc, n, [])
  | c :: cs =>
    if isDigitC c then scanDigits (10 * acc + (c.toNat - 48)) (n + 1) cs
    else (acc, n, c :: cs)

/-- The `%d` conversion: whitespace, optional sign, at least one digit. -/
def scanInt (s : List Char) : Option (Int × List Char) :=
  let s1 := skipSpaces s
  let (sg, s2) := scanSign s1
  let (v, n, s3) := scanDigits 0 0 s2
  if n = 0 then none else some (sg * (v : Int), s3)

/-- A literal `,` in the scanf format: the next input character must be a
comma (literals do not skip whitespace after a numeric conversion stopped). -/
def expectComma : List Char → Option (List Char)
  | ',' :: cs => some cs
  | _ => none

/-- Assemble the exact rational value sign * mant * 10^e10 of a parsed
decimal number (mant already includes the fractional digits; e10 is the
exponent minus the number of fractional digits). -/
def ratOfParts (sg : Int) (mant : Nat) (e10 : Int) : ℚ :=
  if 0 ≤ e10 then mkRat (sg * (mant : Int) * 10 ^ e10.toNat) 1
  else mkRat (sg * (mant : Int)) (10 ^ (-e10).toNat)

/-- The `%lf` conversion (strtod-style decimal): whitespace, optional sign,
digits with an optional `.` and fractional digits (at least one digit in the
mantissa overall), then an optional exponent consumed only when an `e`/`E`
is followed by an optional sign and at least one digit. -/
def scanDouble (s : List Char) : Option (ℚ × List Char) :=
  let s1 := skipSpaces s
  let (sg, s2) := scanSign s1
  let (ip, ni, s3) := scanDigits 0 0 s2
  let (mant, nf, s4) :=
    match s3 with
    | '.' :: cs =>
      let (fv, nf, s4) := scanDigits ip 0 cs
      (fv, nf, s4)
    | _ => (ip, 0, s3)
  if ni + nf = 0 then none
  else
    match s4 with
    | c :: cs =>
      if c = 'e' ∨ c = 'E' then
        let (esg, r1) := scanSign cs
        let (ev, ne, r2) := scanDigits 0 0 r1
        if ne = 0 then some (ratOfParts sg mant (-(nf : Int)), c :: cs)
        else some (ratOfParts sg mant (esg * (ev : Int) - (nf : Int)), r2)
      else some (ratOfParts sg mant (-(nf : Int)), c :: cs)
    | [] => some (ratOfParts sg mant (-(nf : Int)), [])

/-- One parsed CSV triple: (user index, item index, rating). -/
def Triple : Type := Int × Int × ℚ

instance : DecidableEq Triple := by
  unfold Triple
  infer_instance

/-- Full line acceptance test of `sscanf(line, "%d,%d,%lf", ...) == 3`:
the three conversions succeed in sequence, trailing content is ignored. -/
def scanTriple (s : List Char) : Option Triple := do
  let (u, r1) ← scanInt s
  let r2 ← expectComma r1
  let (m, r3) ← scanInt r2
  let r4 ← expectComma r3
  let (v, _) ← scanDouble r4
  pure (u, m, v)

/-! ## Dense matrix builder (fill_matrix_from_csv) -/

/-- The body of the read loop of `fill_matrix_from_csv` for one parsed
triple:
```
if (uid >= 0 && uid < num_rows && mid >= 0 && mid < num_cols) {
    int idx = uid * A->ncols + mid;
    A->d[idx] = rating;
}
```
`ncols` is `A->ncols`, the stride actually used for the write; after the
function's dimension check it equals `num_cols`. -/
def applyTriple (num_rows num_cols ncols : Int) (b : List ℚ) (t : Triple) :
    List ℚ :=
  if 0 ≤ t.1 ∧ t.1 < num_rows ∧ 0 ≤ t.2.1 ∧ t.2.1 < num_cols then
    b.set (t.1 * ncols + t.2.1).toNat t.2.2
  else b

/-- The read loop of `fill_matrix_from_csv`, abstracted over the consumer of
parsed triples (the spec's "caller-supplied consumer"): every line that
sscanf accepts is dispatched, every other line is skipped. -/
def ingestLoop {σ : Type} (consume : σ → Triple → σ) (s : σ) :
    List (List Char) → σ
  | [] => s
  | l :: ls =>
    match scanTriple l with
    | some t => ingestLoop consume (consume s t) ls
    | none => ingestLoop consume s ls

/-- The concrete read loop of `fill_matrix_from_csv`: the consumer is the
in-bounds store into the dense buffer. -/
def fillLoop (num_rows num_cols ncols : Int) (b : List ℚ)
    (ls : List (List Char)) : List ℚ :=
  ingestLoop (applyTriple num_rows num_cols ncols) b ls

/-- Embedding of `fill_matrix_from_csv` (src/SVD/main.c, lines 53-94).
`csvOpens` stands for the success of `fopen(filename, "r")`; `file` is the
list of lines `fgets` yields.  Error codes follow the source: 2 for the
dimension mismatch, 3 for an unopenable file, 4 for an empty file (first
`fgets` fails).  The code-1 null-pointer guard has no counterpart here: the
embedded `mat` carries its buffer by value, and the only caller checks
`calloc` before calling.  On success the function returns the filled
matrix (the C code mutates `A->d` in place and returns 0). -/
def fill_matrix_from_csv (csvOpens : Bool) (file : List (List Char))
    (A : mat ℚ) (num_rows num_cols : Int) : Except Nat (mat ℚ) :=
  if ¬(A.nrows = num_rows ∧ A.ncols = num_cols) then .error 2
  else if ¬csvOpens then .error 3
  else
    match file with
    | [] => .error 4
    | _header :: rest =>
      .ok ⟨A.nrows, A.ncols, fillLoop num_rows num_cols A.ncols A.d rest⟩

/-! ## 32-bit element counts

`A.nrows` and `A.ncols` are C `int`s.  In
`calloc((size_t)(A.nrows * A.ncols), sizeof(double))` (src/SVD/main.c line
167, multi_threaded.c line 137) and
`fwrite(M->d, sizeof(double), (size_t)(M->nrows * M->ncols), fp)` (line 105)
the product is computed in 32-bit signed arithmetic and only the result is
converted to the 64-bit unsigned `size_t`.  Signed overflow is undefined
behaviour in ISO C; the model uses the two's-complement wrapping that the
target platforms exhibit, which is also what the claim describes. -/

/-- Reduce an integer to the `int` range [-2^31, 2^31), two's-complement. -/
def wrap32 (x : Int) : Int := (x + 2 ^ 31) % 2 ^ 32 - 2 ^ 31

/-- Conversion of a signed value to the 64-bit unsigned `size_t`. -/
def toSizeT (x : Int) : Nat := (x % 2 ^ 64).toNat

/-- The element count `(size_t)(rows * cols)` as the C code computes it:
32-bit signed product, then widened to `size_t`. -/
def elemCountSizeT (rows cols : Int) : Nat := toSizeT (wrap32 (rows * cols))

/-! ## Result serializer (save_one_matrix / save_matrices)

The output stream is modelled as a list of bytes (naturals below 256).
`fwrite(&x, sizeof(int), 1, fp)` stores the 4 little-endian bytes of the
two's-complement `int`; each `double` is stored as the 8 bytes of its IEEE
bit pattern, so matrix payload entries are modelled as the 64-bit patterns
themselves (naturals below 2^64) — `fwrite` copies them verbatim. -/

/-- The `k` little-endian bytes of `n` (mod 2^(8k)). -/
def byteLE (n : Nat) : Nat → List Nat
  | 0 => []
  | k + 1 => n % 256 :: byteLE (n / 256) k

/-- Bytes written by `fwrite(&i, sizeof(int), 1, fp)` for a C `int`. -/
def intToBytes4 (i : Int) : List Nat := byteLE (i % 2 ^ 32).toNat 4

/-- Bytes written for one `double` whose IEEE-754 bit pattern is `bits`. -/
def doubleToBytes8 (bits : Nat) : List Nat := byteLE bits 8

/-- Embedding of `save_one_matrix` (src/SVD/main.c lines 96-106).  `none`
covers both a null `mat` pointer and a null `d` payload (`!M || !M->d`);
either writes two zero `int`s and no payload.  Otherwise the row count, the
column count and `(size_t)(M->nrows * M->ncols)` doubles of the row-major
payload are written; the `take` mirrors the fwrite element count (when the
count exceeded the buffer length the C code would read out of bounds, which
has no counterpart here). -/
def save_one_matrix (M : Option (mat Nat)) : List Nat :=
  match M with
  | none => intToBytes4 0 ++ intToBytes4 0
  | some M =>
    intToBytes4 M.nrows ++ intToBytes4 M.ncols ++
      (M.d.take (elemCountSizeT M.nrows M.ncols)).flatMap doubleToBytes8

/-- Bytes of the results file `svd_mpi_results.dat` as written by
`save_matrices` (src/SVD/main.c lines 108-122): the three factor matrices in
the fixed order Uk, Sk, Vk. -/
def save_matrices (Uk Sk Vk : Option (mat Nat)) : List Nat :=
  save_one_matrix Uk ++ save_one_matrix Sk ++ save_one_matrix Vk

/-! ## Reader for the persisted format -/

/-- Little-endian value of a byte list. -/
def bytesToNat : List Nat → Nat
  | [] => 0
  | b :: bs => b % 256 + 256 * bytesToNat bs

/-- Split off exactly `k` bytes, if available. -/
def readBytes (k : Nat) (bs : List Nat) : Option (List Nat × List Nat) :=
  if k ≤ bs.length then some (bs.take k, bs.drop k) else none

/-- Read `n` consecutive 8-byte doubles (as bit patterns). -/
def readDoubles : Nat → List Nat → Option (List Nat × List Nat)
  | 0, bs => some ([], bs)
  | n + 1, bs => do
    let (v, bs1) ← readBytes 8 bs
    let (vs, bs2) ← readDoubles n bs1
    pure (bytesToNat v :: vs, bs2)

/-- Modelled from the spec: the repository contains no reader for the
results file, so this decoder follows §4.4 of the spec word for word — each
record is "a 4-byte row count, a 4-byte column count, then (rows×cols)
8-byte IEEE-754 values in row-major order", a missing matrix being the
record `0 0` with no payload bytes. -/
def read_one_matrix (bs : List Nat) : Option (mat Nat × List Nat) := do
  let (r, bs1) ← readBytes 4 bs
  let (c, bs2) ← readBytes 4 bs1
  let rows := bytesToNat r
  let cols := bytesToNat c
  let (vs, bs3) ← readDoubles (rows * cols) bs2
  pure (⟨(rows : Int), (cols : Int), vs⟩, bs3)

/-- Modelled from the spec: read the three records of the results file in
the fixed order U, S, V ("the reader must always expect exactly three
matrix records"). -/
def read_three_matrices (bs : List Nat) :
    Option ((mat Nat × mat Nat × mat Nat) × List Nat) := do
  let (u, bs1) ← read_one_matrix bs
  let (s, bs2) ← read_one_matrix bs1
  let (v, bs3) ← read_one_matrix bs2
  pure ((u, s, v), bs3)

/-- What a serialized matrix reads back as: a missing matrix becomes the
empty 0×0 record, a present one is reproduced as is. -/
def reprOfOpt (M : Option (mat Nat)) : mat Nat :=
  match M with
  | none => ⟨0, 0, []⟩
  | some M => M

/-- Well-formedness of a factor matrix as handed to the serializer:
nonnegative `int` dimensions, an element count that does not overflow the
32-bit product, a payload of exactly that length, and 64-bit payload
patterns. -/
def wfMat (M : mat Nat) : Prop :=
  0 ≤ M.nrows ∧ M.nrows < 2 ^ 31 ∧ 0 ≤ M.ncols ∧ M.ncols < 2 ^ 31 ∧
    M.nrows * M.ncols < 2 ^ 31 ∧ M.d.length = (M.nrows * M.ncols).toNat ∧
    ∀ x ∈ M.d, x < 2 ^ 64

/-- Option-level well-formedness (a missing matrix is vacuously fine). -/
def wfOptMat (M : Option (mat Nat)) : Prop :=
  match M with
  | none => True
  | some M => wfMat M

instance (M : mat Nat) : Decidable (wfMat M) := by
  unfold wfMat
  infer_instance

instance (M : Option (mat Nat)) : Decidable (wfOptMat M) := by
  cases M <;> unfold wfOptMat <;> infer_instance

/-! ## Logging model

Two logging disciplines exist in the repository.  `src/SVD/main.c` opens
"svd_mpi.log" once with mode "w" at the start of the rank-0 pipeline, keeps
the handle open across all phases and closes it at the end.  The
multi_threaded variant (src/unnamed/part_004, log_message) opens its log
with mode "a" for every single message and closes it again at once.  The
trace of file operations on the log sink is recorded as a list of events;
`write` carries the C format string of the line (the formatted timing
values, being wall-clock dependent, are abstracted into the format
string). -/

inductive LogEvent where
  | openWrite : LogEvent
  | openAppend : LogEvent
  | write : String → LogEvent
  | close : LogEvent
deriving Repr, DecidableEq

/-- Embedding of `log_message` (src/unnamed/part_004, lines 404-412): open
the log in append mode, write the one message, close.  If the open fails the
error goes to stderr and nothing is logged. -/
def log_message (logOpens : Bool) (message : String) : List LogEvent :=
  if logOpens then [.openAppend, .write message, .close] else []

/-- A trace is per-message scoped when it is a concatenation of blocks that
each open the sink in append mode, write exactly one line and close it
before anything else happens. -/
def perMessageScoped : List LogEvent → Bool
  | [] => true
  | .openAppend :: .write _ :: .close :: rest => perMessageScoped rest
  | _ => false

/-! ## Rank-0 control flow of main (src/SVD/main.c, lines 124-226) -/

/-- Everything main's behaviour depends on: command line, file system and
the outputs of the external factorization routine.  `svds_C_dense` is
declared `void svds_C_dense(mat *A, mat **Uk, mat **Sk, mat **Vk, int k)` —
it returns no status code, so the only thing the driver receives are the
three (possibly null) output handles, taken here as unconstrained
environment data. -/
structure Env where
  /-- Number of command-line arguments, `argc` (program name included). -/
  argc : Nat
  /-- Declared row count, `atoi(argv[2])`. -/
  numRows : Int
  /-- Declared column count, `atoi(argv[3])`. -/
  numCols : Int
  /-- Requested rank, `atoi(argv[4])`. -/
  K : Int
  /-- Does `fopen("svd_mpi.log", "w")` succeed? -/
  logOpens : Bool
  /-- Does the `calloc` for `A.d` succeed? -/
  allocOk : Bool
  /-- Does `fopen(csv_file, "r")` succeed? -/
  csvOpens : Bool
  /-- The lines of the CSV file. -/
  csvLines : List (List Char)
  /-- Does `fopen("svd_mpi_results.dat", "wb")` succeed? -/
  outOpens : Bool
  /-- Output handles produced by `svds_C_dense` (null = `none`). -/
  svdsU : Option (mat Nat)
  svdsS : Option (mat Nat)
  svdsV : Option (mat Nat)

/-- Observable outcome of one MPI process running main. -/
structure RunResult where
  /-- Process exit status (the value of `return`, or the code of
  `MPI_Abort(MPI_COMM_WORLD, 1)`). -/
  exitCode : Int
  /-- Was `fill_matrix_from_csv` invoked (the ingest/build stage)? -/
  ingested : Bool
  /-- Was the external routine `svds_C_dense` invoked? -/
  svdsCalled : Bool
  /-- Was `save_matrices` invoked (the serialize stage)? -/
  saved : Bool
  /-- Was the log file created (successful `fopen` with mode "w")? -/
  logCreated : Bool
  /-- Was the results file created (successful `fopen` with mode "wb")? -/
  outCreated : Bool
  /-- Content of the results file, when it was created. -/
  outBytes : Option (List Nat)
  /-- Trace of operations on the log sink. -/
  logEvents : List LogEvent
deriving Repr, DecidableEq

/-- The log format strings of src/SVD/main.c in program order. -/
def msgHeader : String := "Rank 0: reading '%s', building %dx%d matrix, K=%d"
def msgAllocFail : String := "Error: allocation failed for A->d"
def msgCsvFail : String := "Error reading CSV (code=%d)"
def msgCsvTime : String := "CSV reading & matrix fill took %.6f sec."
def msgSvdTime : String := "SVD computation took %.6f sec."
def msgSaveTime : String := "Saving Uk, Sk, Vk took %.6f sec."
def msgTotalTime : String := "Total program time: %.6f sec."
def msgDone : String := "svds_C_dense call completed successfully!"

/-- Embedding of `main` from src/SVD/main.c for the process of the given
MPI rank (the communicator size only feeds a printf).  Mirrors the source
line by line:
  * `argc < 5`: usage message, `MPI_Finalize`, `return 1` — on every rank;
  * any rank other than 0 skips the entire pipeline and returns 0;
  * rank 0: open the log with mode "w" (abort 1 on failure), log the
    header, `calloc` the dense buffer (log + abort 1 on failure), run
    `fill_matrix_from_csv` (log + abort 1 on nonzero return), log the CSV
    time, call `svds_C_dense` unconditionally — there is no validation of
    `K` anywhere — log the SVD time, call `save_matrices` (which only
    prints to stderr when the results file cannot be opened), log the save
    time, free everything, log the total time and the success line, close
    the log, `return 0`. -/
def svdMpiMain (rank : Nat) (env : Env) : RunResult :=
  if env.argc < 5 then
    ⟨1, false, false, false, false, false, none, []⟩
  else if rank ≠ 0 then
    ⟨0, false, false, false, false, false, none, []⟩
  else if ¬env.logOpens then
    ⟨1, false, false, false, false, false, none, []⟩
  else
    let A : mat ℚ :=
      ⟨env.numRows, env.numCols,
        List.replicate (elemCountSizeT env.numRows env.numCols) 0⟩
    if ¬env.allocOk then
      ⟨1, false, false, false, true, false, none,
        [.openWrite, .write msgHeader, .write msgAllocFail, .close]⟩
    else
      match fill_matrix_from_csv env.csvOpens env.csvLines A
          env.numRows env.numCols with
      | .error _ =>
        ⟨1, true, false, false, true, false, none,
          [.openWrite, .write msgHeader, .write msgCsvFail, .close]⟩
      | .ok _ =>
        ⟨0, true, true, true, true, env.outOpens,
          if env.outOpens
          then some (save_matrices env.svdsU env.svdsS env.svdsV)
          else none,
          [.openWrite, .write msgHeader, .write msgCsvTime,
            .write msgSvdTime, .write msgSaveTime, .write msgTotalTime,
            .write msgDone, .close]⟩

/-! ## Concrete run configurations used in counterexamples and witnesses -/

/-- A fully healthy run: valid usage, all files open, allocation succeeds,
a small 2x2 CSV, K = 1, and the external routine produces small factors. -/
def envOk : Env where
  argc := 5
  numRows := 2
  numCols := 2
  K := 1
  logOpens := true
  allocOk := true
  csvOpens := true
  csvLines :=
    ["user,movie,rating".toList, "0,0,5.0".toList, "0,1,3.0".toList,
      "1,0,4.0".toList]
  outOpens := true
  svdsU := some ⟨2, 1, [3, 5]⟩
  svdsS := some ⟨1, 1, [7]⟩
  svdsV := some ⟨2, 1, [11, 13]⟩

/-- The healthy run with the invalid rank K = 0 (min(rows, cols) = 2). -/
def envK0 : Env := { envOk with K := 0 }

/-- The healthy run, but the external routine produced no output handles —
the only failure signal its `void` interface can carry. -/
def envNullFactors : Env :=
  { envOk with svdsU := none, svdsS := none, svdsV := none }

/-- The healthy run, except that the results file cannot be opened for
writing (unwritable output path). -/
def envOutUnwritable : Env := { envOk with outOpens := false }

/-! ## Helper lemmas: 32-bit counts -/

/-- Values already in the nonnegative `int` range are fixed by the 32-bit
wrap. -/
theorem wrap32_eq_self {x : Int} (h0 : 0 ≤ x) (h1 : x < 2 ^ 31) :
    wrap32 x = x := by
  have : (x + 2 ^ 31) % 2 ^ 32 = x + 2 ^ 31 :=
    Int.emod_eq_of_lt (by omega) (by omega)
  simp only [wrap32, this]
  omega

/-- The element count computed by the C code agrees with the mathematical
product as long as the product stays below 2^31. -/
theorem elemCountSizeT_eq {rows cols : Int} (h0 : 0 ≤ rows * cols)
    (h1 : rows * cols < 2 ^ 31) :
    elemCountSizeT rows cols = (rows * cols).toNat := by
  have hw := wrap32_eq_self h0 h1
  have : rows * cols % 2 ^ 64 = rows * cols :=
    Int.emod_eq_of_lt h0 (by omega)
  simp only [elemCountSizeT, toSizeT, hw, this]

/-- The 32-bit wrap always lands in [-2^31, 2^31). -/
theorem wrap32_bounds (x : Int) :
    -2 ^ 31 ≤ wrap32 x ∧ wrap32 x < 2 ^ 31 := by
  have h1 : 0 ≤ (x + 2 ^ 31) % 2 ^ 32 := Int.emod_nonneg _ (by omega)
  have h2 : (x + 2 ^ 31) % 2 ^ 32 < 2 ^ 32 :=
    Int.emod_lt_of_pos _ (by omega)
  simp only [wrap32]
  omega

/-! ## Helper lemmas: byte-level round trip -/

theorem length_byteLE (n k : Nat) : (byteLE n k).length = k := by
  induction k generalizing n with
  | zero => rfl
  | succ k ih => simp [byteLE, ih]

theorem bytesToNat_byteLE (n k : Nat) :
    bytesToNat (byteLE n k) = n % 256 ^ k := by
  induction k generalizing n with
  | zero => simp [byteLE, bytesToNat, Nat.mod_one]
  | succ k ih =>
    simp only [byteLE, bytesToNat, ih, Nat.mod_mod_of_dvd _ dvd_rfl]
    rw [Nat.pow_succ, Nat.mul_comm (256 ^ k) 256, Nat.mod_mul]

theorem readBytes_append {k : Nat} {xs ys : List Nat} (h : xs.length = k) :
    readBytes k (xs ++ ys) = some (xs, ys) := by
  subst h
  simp [readBytes, List.take_left, List.drop_left]

theorem readDoubles_flatMap {vs : List Nat} (rest : List Nat)
    (hv : ∀ x ∈ vs, x < 2 ^ 64) :
    readDoubles vs.length (vs.flatMap doubleToBytes8 ++ rest) =
      some (vs, rest) := by
  induction vs with
  | nil => simp [readDoubles]
  | cons v vs ih =>
    have hv0 : v < 2 ^ 64 := hv v (by simp)
    have hv1 : ∀ x ∈ vs, x < 2 ^ 64 := fun x hx => hv x (by simp [hx])
    have hlen : (doubleToBytes8 v).length = 8 := length_byteLE v 8
    have hb : bytesToNat (doubleToBytes8 v) = v := by
      rw [doubleToBytes8, bytesToNat_byteLE]
      exact Nat.mod_eq_of_lt (by exact_mod_cast hv0)
    simp only [List.length_cons, List.flatMap_cons, List.append_assoc,
      readDoubles, readBytes_append hlen, Option.bind_eq_bind,
      Option.some_bind, hb, ih hv1]
    rfl

theorem intToBytes4_length (i : Int) : (intToBytes4 i).length = 4 :=
  length_byteLE _ 4

theorem bytesToNat_intToBytes4 {i : Int} (h0 : 0 ≤ i) (h1 : i < 2 ^ 31) :
    bytesToNat (intToBytes4 i) = i.toNat := by
  have hm : i % 2 ^ 32 = i := Int.emod_eq_of_lt h0 (by omega)
  rw [intToBytes4, hm, bytesToNat_byteLE]
  have : i.toNat < 256 ^ 4 := by omega
  exact Nat.mod_eq_of_lt this

/-- One serialized record reads back per the §4.4 layout: a missing matrix
as the empty 0x0 record, a present well-formed matrix as itself. -/
theorem read_one_save_one (M : Option (mat Nat)) (h : wfOptMat M)
    (rest : List Nat) :
    read_one_matrix (save_one_matrix M ++ rest) = some (reprOfOpt M, rest) := by
  cases M with
  | none =>
    have h4 : (intToBytes4 (0 : Int)).length = 4 := intToBytes4_length 0
    have hb : bytesToNat (intToBytes4 (0 : Int)) = 0 :=
      bytesToNat_intToBytes4 le_rfl (by omega)
    simp only [save_one_matrix, read_one_matrix, List.append_assoc,
      readBytes_append h4, Option.bind_eq_bind, Option.some_bind, hb,
      Nat.zero_mul, readDoubles, reprOfOpt]
    rfl
  | some M =>
    obtain ⟨hr0, hr1, hc0, hc1, hprod, hlen, hvals⟩ := h
    have h4r : (intToBytes4 M.nrows).length = 4 := intToBytes4_length _
    have h4c : (intToBytes4 M.ncols).length = 4 := intToBytes4_length _
    have hbr : bytesToNat (intToBytes4 M.nrows) = M.nrows.toNat :=
      bytesToNat_intToBytes4 hr0 hr1
    have hbc : bytesToNat (intToBytes4 M.ncols) = M.ncols.toNat :=
      bytesToNat_intToBytes4 hc0 hc1
    have hcount : elemCountSizeT M.nrows M.ncols = (M.nrows * M.ncols).toNat :=
      elemCountSizeT_eq (mul_nonneg hr0 hc0) hprod
    have htake : M.d.take (elemCountSizeT M.nrows M.ncols) = M.d := by
      rw [hcount, ← hlen]
      exact List.take_length M.d
    have hmul : M.nrows.toNat * M.ncols.toNat = M.d.length := by
      rw [hlen]
      rcases Int.eq_ofNat_of_zero_le hr0 with ⟨a, ha⟩
      rcases Int.eq_ofNat_of_zero_le hc0 with ⟨b, hb⟩
      rw [ha, hb, ← Int.natCast_mul, Int.toNat_natCast, Int.toNat_natCast,
        Int.toNat_natCast]
    simp only [save_one_matrix, read_one_matrix, List.append_assoc,
      readBytes_append h4r, Option.bind_eq_bind, Option.some_bind,
      readBytes_append h4c, hbr, hbc, htake, hmul,
      readDoubles_flatMap rest hvals, reprOfOpt]
    rw [Int.toNat_of_nonneg hr0, Int.toNat_of_nonneg hc0]
    rfl

/-! ## Helper lemmas: last-write-wins on the row-major buffer -/

/-- Row-major indices determine the (row, column) pair as long as the
column is in range. -/
theorem rowMajorIndex_inj {cols u1 m1 u2 m2 : Int}
    (hm10 : 0 ≤ m1) (hm1 : m1 < cols) (hm20 : 0 ≤ m2) (hm2 : m2 < cols)
    (h : u1 * cols + m1 = u2 * cols + m2) : u1 = u2 ∧ m1 = m2 := by
  have hc : cols ≠ 0 := by omega
  have e1 : (m1 + u1 * cols) / cols = u1 := by
    rw [Int.add_mul_ediv_right _ _ hc, Int.ediv_eq_zero_of_lt hm10 hm1]
    omega
  have e2 : (m2 + u2 * cols) / cols = u2 := by
    rw [Int.add_mul_ediv_right _ _ hc, Int.ediv_eq_zero_of_lt hm20 hm2]
    omega
  have e3 : (m1 + u1 * cols) % cols = m1 := by
    rw [Int.add_mul_emod_self, Int.emod_eq_of_lt hm10 hm1]
  have e4 : (m2 + u2 * cols) % cols = m2 := by
    rw [Int.add_mul_emod_self, Int.emod_eq_of_lt hm20 hm2]
  have h' : m1 + u1 * cols = m2 + u2 * cols := by omega
  constructor
  · rw [← e1, ← e2, h']
  · rw [← e3, ← e4, h']

/-- An in-range row-major index lies below the row-count times column-count
product. -/
theorem rowMajorIndex_lt {rows cols u m : Int}
    (hu0 : 0 ≤ u) (hu : u < rows) (hm0 : 0 ≤ m) (hm : m < cols) :
    (u * cols + m).toNat < (rows * cols).toNat := by
  have h1 : u * cols + m < (u + 1) * cols := by nlinarith
  have h2 : (u + 1) * cols ≤ rows * cols := by nlinarith
  have h3 : 0 ≤ u * cols := mul_nonneg hu0 (by omega)
  omega

/-- Last write wins, one position at a time: after folding a list of
triples into the buffer, the entry at the in-bounds position (u, m) is the
rating of the last triple keyed (u, m) — all such triples are in bounds and
hit exactly this position — and is left at the buffer's prior value when no
triple matches. -/
theorem foldl_applyTriple_getElem (rows cols u m : Int)
    (hu0 : 0 ≤ u) (hu : u < rows) (hm0 : 0 ≤ m) (hm : m < cols)
    (ts : List Triple) (b : List ℚ) (hb : (rows * cols).toNat ≤ b.length) :
    (ts.foldl (applyTriple rows cols cols) b)[(u * cols + m).toNat]? =
      ((ts.filter fun t => decide (t.1 = u ∧ t.2.1 = m)).getLast?).elim
        b[(u * cols + m).toNat]? (fun t => some t.2.2) := by
  induction ts generalizing b with
  | nil => simp
  | cons t ts ih =>
    have hblen : ∀ t', (applyTriple rows cols cols b t').length = b.length := by
      intro t'
      unfold applyTriple
      split <;> simp
    have hidx : (u * cols + m).toNat < b.length :=
      lt_of_lt_of_le (rowMajorIndex_lt hu0 hu hm0 hm) hb
    by_cases hp : t.1 = u ∧ t.2.1 = m
    · have hin : 0 ≤ t.1 ∧ t.1 < rows ∧ 0 ≤ t.2.1 ∧ t.2.1 < cols := by
        obtain ⟨h1, h2⟩ := hp
        omega
      have happ : applyTriple rows cols cols b t =
          b.set (u * cols + m).toNat t.2.2 := by
        unfold applyTriple
        rw [if_pos hin, hp.1, hp.2]
      rw [List.foldl_cons, ih _ (by rw [hblen]; exact hb),
        List.filter_cons_of_pos (by simpa using hp)]
      cases hlast : (ts.filter fun t => decide (t.1 = u ∧ t.2.1 = m)).getLast? with
      | some t' =>
        have hcons :
            ((t :: (ts.filter fun t => decide (t.1 = u ∧ t.2.1 = m))).getLast?) =
              some t' := by
          rw [List.getLast?_cons, hlast]
          rfl
        rw [hcons]
        rfl
      | none =>
        have hcons :
            ((t :: (ts.filter fun t => decide (t.1 = u ∧ t.2.1 = m))).getLast?) =
              some t := by
          rw [List.getLast?_cons, hlast]
          rfl
        rw [hcons, happ]
        simp [List.getElem?_set_self hidx]
    · have hne : ∀ (hin : 0 ≤ t.1 ∧ t.1 < rows ∧ 0 ≤ t.2.1 ∧ t.2.1 < cols),
          (t.1 * cols + t.2.1).toNat ≠ (u * cols + m).toNat := by
        intro hin heq
        have h0 : 0 ≤ t.1 * cols + t.2.1 := by nlinarith [hin.1, hin.2.2.1]
        have h0' : 0 ≤ u * cols + m := by nlinarith
        have : t.1 * cols + t.2.1 = u * cols + m := by omega
        have := rowMajorIndex_inj hin.2.2.1 hin.2.2.2 hm0 hm this
        exact hp ⟨this.1, this.2⟩
      have happ : (applyTriple rows cols cols b t)[(u * cols + m).toNat]? =
          b[(u * cols + m).toNat]? := by
        unfold applyTriple
        split <;> rename_i hin
        · exact List.getElem?_set_ne (hne hin)
        · rfl
      rw [List.foldl_cons, ih _ (by rw [hblen]; exact hb),
        List.filter_cons_of_neg (by simpa using hp), happ]

/-- The read loop dispatches to the consumer exactly the lines accepted by
the sscanf model, in file order. -/
theorem ingestLoop_eq_foldl {σ : Type} (consume : σ → Triple → σ) (s : σ)
    (ls : List (List Char)) :
    ingestLoop consume s ls = (ls.filterMap scanTriple).foldl consume s := by
  induction ls generalizing s with
  | nil => rfl
  | cons l ls ih =>
    simp only [ingestLoop, List.filterMap_cons]
    cases scanTriple l <;> simp [ih]

/-- C1: for every CSV file and declared dimensions rows, cols, after
ingestion the built dense matrix entry at in-bounds position (u, m) equals
the rating of the last in-bounds triple in file order keyed (u, m) — any
triple keyed (u, m) is automatically in bounds here, and no out-of-bounds
triple ever writes, so filtering on the key is exactly filtering on the
in-bounds triples for this position — and an entry with no matching triple
is exactly 0 (the calloc zero-initialization, never overwritten).  The
buffer is sized by the code's own `(size_t)(rows * cols)` computation; the
product bound keeps that computation exact (claim C10's regime). -/
theorem fill_matrix_last_write_wins (lines : List (List Char))
    (rows cols u m : Int) (hne : lines ≠ []) (hu0 : 0 ≤ u) (hu : u < rows)
    (hm0 : 0 ≤ m) (hm : m < cols) (hsz : rows * cols < 2 ^ 31) :
    ∃ d : List ℚ,
      fill_matrix_from_csv true lines
          ⟨rows, cols, List.replicate (elemCountSizeT rows cols) (0 : ℚ)⟩
          rows cols = .ok ⟨rows, cols, d⟩ ∧
      d[(u * cols + m).toNat]? =
        some (((((lines.drop 1).filterMap scanTriple).filter
            (fun t => decide (t.1 = u ∧ t.2.1 = m))).getLast?).elim 0
          (fun t => t.2.2)) := by
  rcases lines with _ | ⟨l, rest⟩
  · exact absurd rfl hne
  refine ⟨fillLoop rows cols cols
    (List.replicate (elemCountSizeT rows cols) (0 : ℚ)) rest, ?_, ?_⟩
  · simp [fill_matrix_from_csv]
  · have hprod0 : 0 ≤ rows * cols := mul_nonneg (by omega) (by omega)
    have hlenb : (rows * cols).toNat ≤
        (List.replicate (elemCountSizeT rows cols) (0 : ℚ)).length := by
      rw [List.length_replicate, elemCountSizeT_eq hprod0 hsz]
    have hidx : (u * cols + m).toNat <
        (List.replicate (elemCountSizeT rows cols) (0 : ℚ)).length :=
      lt_of_lt_of_le (rowMajorIndex_lt hu0 hu hm0 hm) hlenb
    rw [fillLoop, ingestLoop_eq_foldl,
      foldl_applyTriple_getElem rows cols u m hu0 hu hm0 hm _ _ hlenb]
    simp only [List.drop_succ_cons, List.drop_zero]
    cases ((rest.filterMap scanTriple).filter
        (fun t => decide (t.1 = u ∧ t.2.1 = m))).getLast? with
    | some t' => rfl
    | none =>
      rw [List.length_replicate] at hidx
      simp [List.getElem?_replicate, hidx]

/-! ## Helper lemmas: the paths of svdMpiMain -/

theorem fill_main_ok (r c : Int) (b : List ℚ) (l : List Char)
    (rest : List (List Char)) :
    fill_matrix_from_csv true (l :: rest) ⟨r, c, b⟩ r c =
      .ok ⟨r, c, fillLoop r c c b rest⟩ := by
  simp [fill_matrix_from_csv]

theorem fill_main_err3 (r c : Int) (b : List ℚ) (lines : List (List Char)) :
    fill_matrix_from_csv false lines ⟨r, c, b⟩ r c = .error 3 := by
  simp [fill_matrix_from_csv]

theorem fill_main_err4 (r c : Int) (b : List ℚ) :
    fill_matrix_from_csv true [] ⟨r, c, b⟩ r c = .error 4 := by
  simp [fill_matrix_from_csv]

theorem svdMpiMain_usage (rank : Nat) (env : Env) (h : env.argc < 5) :
    svdMpiMain rank env = ⟨1, false, false, false, false, false, none, []⟩ := by
  simp [svdMpiMain, h]

theorem svdMpiMain_nonleader (rank : Nat) (env : Env) (h5 : ¬env.argc < 5)
    (hr : rank ≠ 0) :
    svdMpiMain rank env = ⟨0, false, false, false, false, false, none, []⟩ := by
  simp [svdMpiMain, h5, hr]

theorem svdMpiMain_logfail (env : Env) (h5 : ¬env.argc < 5)
    (hlog : env.logOpens = false) :
    svdMpiMain 0 env = ⟨1, false, false, false, false, false, none, []⟩ := by
  simp [svdMpiMain, h5, hlog]

theorem svdMpiMain_allocfail (env : Env) (h5 : ¬env.argc < 5)
    (hlog : env.logOpens = true) (halloc : env.allocOk = false) :
    svdMpiMain 0 env = ⟨1, false, false, false, true, false, none,
      [.openWrite, .write msgHeader, .write msgAllocFail, .close]⟩ := by
  simp [svdMpiMain, h5, hlog, halloc]

theorem svdMpiMain_csvfail (env : Env) (h5 : ¬env.argc < 5)
    (hlog : env.logOpens = true) (halloc : env.allocOk = true)
    (hcsv : env.csvOpens = false ∨ env.csvLines = []) :
    svdMpiMain 0 env = ⟨1, true, false, false, true, false, none,
      [.openWrite, .write msgHeader, .write msgCsvFail, .close]⟩ := by
  rcases hcsv with hcsv | hcsv
  · simp [svdMpiMain, h5, hlog, halloc, hcsv, fill_main_err3]
  · rcases hop : env.csvOpens with _ | _
    · simp [svdMpiMain, h5, hlog, halloc, hop, fill_main_err3]
    · simp [svdMpiMain, h5, hlog, halloc, hop, hcsv, fill_main_err4]

theorem svdMpiMain_success (env : Env) (h5 : ¬env.argc < 5)
    (hlog : env.logOpens = true) (halloc : env.allocOk = true)
    (hcsv : env.csvOpens = true) (l : List Char) (rest : List (List Char))
    (hlines : env.csvLines = l :: rest) :
    svdMpiMain 0 env = ⟨0, true, true, true, true, env.outOpens,
      (if env.outOpens
        then some (save_matrices env.svdsU env.svdsS env.svdsV) else none),
      [.openWrite, .write msgHeader, .write msgCsvTime, .write msgSvdTime,
        .write msgSaveTime, .write msgTotalTime, .write msgDone, .close]⟩ := by
  simp [svdMpiMain, h5, hlog, halloc, hcsv, hlines, fill_main_ok]

/-- C2: the serializer writes exactly three records in the fixed order U,
S, V — each a 4-byte row count, a 4-byte column count, then rows*cols
8-byte doubles in row-major order, a null matrix becoming the 0/0 record
with no payload — and reading the bytes back per this layout reproduces
every dimension and every value bit-exactly. -/
theorem save_matrices_roundtrip (U S V : Option (mat Nat))
    (hU : wfOptMat U) (hS : wfOptMat S) (hV : wfOptMat V) :
    save_matrices U S V =
      save_one_matrix U ++ save_one_matrix S ++ save_one_matrix V ∧
    read_three_matrices (save_matrices U S V) =
      some ((reprOfOpt U, reprOfOpt S, reprOfOpt V), []) := by
  refine ⟨rfl, ?_⟩
  have hv0 : save_one_matrix V = save_one_matrix V ++ [] :=
    (List.append_nil _).symm
  have hu := read_one_save_one U hU (save_one_matrix S ++ save_one_matrix V)
  have hs := read_one_save_one S hS (save_one_matrix V)
  have hv := read_one_save_one V hV []
  rw [save_matrices, read_three_matrices, List.append_assoc, hu]
  simp only [Option.bind_eq_bind, Option.some_bind, hs]
  rw [hv0, hv]
  rfl

/-- Witness for C2: a 2x1 U, a missing S and a 1x1 V round-trip through the
byte format. -/
theorem save_matrices_roundtrip_witness :
    (wfOptMat (some ⟨2, 1, [3, 5]⟩) ∧ wfOptMat none ∧
      wfOptMat (some ⟨1, 1, [7]⟩)) ∧
    (save_matrices (some ⟨2, 1, [3, 5]⟩) none (some ⟨1, 1, [7]⟩) =
      save_one_matrix (some ⟨2, 1, [3, 5]⟩) ++ save_one_matrix none ++
        save_one_matrix (some ⟨1, 1, [7]⟩) ∧
    read_three_matrices
        (save_matrices (some ⟨2, 1, [3, 5]⟩) none (some ⟨1, 1, [7]⟩)) =
      some ((reprOfOpt (some ⟨2, 1, [3, 5]⟩), reprOfOpt none,
        reprOfOpt (some ⟨1, 1, [7]⟩)), [])) :=
  ⟨⟨by decide, by decide, by decide⟩,
    save_matrices_roundtrip (some ⟨2, 1, [3, 5]⟩) none (some ⟨1, 1, [7]⟩)
      (by decide) (by decide) (by decide)⟩

/-- C6: a triple whose indices are out of bounds leaves every entry of the
buffer unchanged (the store is skipped, no error is produced), and the read
loop simply continues with the next line. -/
theorem oob_triple_is_noop (rows cols ncols : Int) (b : List ℚ) (t : Triple)
    (h : ¬(0 ≤ t.1 ∧ t.1 < rows ∧ 0 ≤ t.2.1 ∧ t.2.1 < cols)) :
    applyTriple rows cols ncols b t = b ∧
    ∀ (l : List Char) (ls : List (List Char)), scanTriple l = some t →
      fillLoop rows cols ncols b (l :: ls) = fillLoop rows cols ncols b ls := by
  have h1 : applyTriple rows cols ncols b t = b := by
    unfold applyTriple
    rw [if_neg h]
  refine ⟨h1, fun l ls hl => ?_⟩
  simp [fillLoop, ingestLoop, hl, h1]

/-- Witness for C6: the triple (5, 0, 1) is out of bounds for a 2x2 matrix
and leaves the buffer untouched. -/
theorem oob_triple_is_noop_witness :
    (¬((0 : Int) ≤ (5 : Int) ∧ (5 : Int) < 2 ∧ (0 : Int) ≤ (0 : Int) ∧
      (0 : Int) < 2)) ∧
    (applyTriple 2 2 2 [1, 1, 1, 1] ((5 : Int), (0 : Int), (1 : ℚ)) =
      [1, 1, 1, 1] ∧
    ∀ (l : List Char) (ls : List (List Char)),
      scanTriple l = some ((5 : Int), (0 : Int), (1 : ℚ)) →
      fillLoop 2 2 2 [1, 1, 1, 1] (l :: ls) =
        fillLoop 2 2 2 [1, 1, 1, 1] ls) :=
  ⟨by decide, oob_triple_is_noop 2 2 2 [1, 1, 1, 1] (5, 0, 1) (by decide)⟩

/-- C7: for a readable file the ingestor returns success, the first line is
discarded without being parsed (any header gives the same result), and a
triple is dispatched to the consumer exactly for the lines the
sscanf("%d,%d,%lf") model accepts, in file order; all other lines are
skipped with no effect. -/
theorem ingest_discipline (A : mat ℚ) (rows cols : Int)
    (lines : List (List Char)) (hr : A.nrows = rows) (hc : A.ncols = cols)
    (hne : lines ≠ []) :
    fill_matrix_from_csv true lines A rows cols =
      .ok ⟨A.nrows, A.ncols,
        ((lines.drop 1).filterMap scanTriple).foldl
          (applyTriple rows cols A.ncols) A.d⟩ ∧
    (∀ h2 : List Char,
        fill_matrix_from_csv true (h2 :: lines.drop 1) A rows cols =
          fill_matrix_from_csv true lines A rows cols) ∧
    (∀ (σ : Type) (consume : σ → Triple → σ) (s : σ)
        (ls : List (List Char)),
        ingestLoop consume s ls = (ls.filterMap scanTriple).foldl consume s) := by
  rcases lines with _ | ⟨l, rest⟩
  · exact absurd rfl hne
  subst hr hc
  refine ⟨?_, ?_, fun σ consume s ls => ingestLoop_eq_foldl consume s ls⟩
  · simp [fill_matrix_from_csv, fillLoop, ingestLoop_eq_foldl]
  · intro h2
    simp [fill_matrix_from_csv]

/-- Witness for C7 at the spec's example CSV. -/
theorem ingest_discipline_witness :
    ((mat.mk 2 2 [0, 0, 0, 0] : mat ℚ).nrows = 2 ∧
      (mat.mk 2 2 [0, 0, 0, 0] : mat ℚ).ncols = 2 ∧
      envOk.csvLines ≠ []) ∧
    (fill_matrix_from_csv true envOk.csvLines ⟨2, 2, [0, 0, 0, 0]⟩ 2 2 =
      .ok ⟨(mat.mk 2 2 [0, 0, 0, 0] : mat ℚ).nrows,
        (mat.mk 2 2 [0, 0, 0, 0] : mat ℚ).ncols,
        ((envOk.csvLines.drop 1).filterMap scanTriple).foldl
          (applyTriple 2 2 (mat.mk 2 2 [0, 0, 0, 0] : mat ℚ).ncols)
          (mat.mk 2 2 [0, 0, 0, 0] : mat ℚ).d⟩ ∧
    (∀ h2 : List Char,
        fill_matrix_from_csv true (h2 :: envOk.csvLines.drop 1)
            ⟨2, 2, [0, 0, 0, 0]⟩ 2 2 =
          fill_matrix_from_csv true envOk.csvLines ⟨2, 2, [0, 0, 0, 0]⟩ 2 2) ∧
    (∀ (σ : Type) (consume : σ → Triple → σ) (s : σ)
        (ls : List (List Char)),
        ingestLoop consume s ls = (ls.filterMap scanTriple).foldl consume s)) :=
  ⟨⟨rfl, rfl, by decide⟩,
    ingest_discipline ⟨2, 2, [0, 0, 0, 0]⟩ 2 2 envOk.csvLines rfl rfl
      (by decide)⟩

/-- C10: the element count `(size_t)(rows * cols)` is computed in 32-bit
signed arithmetic before widening: below 2^31 it equals the mathematical
product, at or above 2^31 it wraps (the product modulo 2^32 interpreted as
signed) and no longer equals the product. -/
theorem elemCount_int32_wrap (rows cols : Int) (h0 : 0 ≤ rows)
    (h1 : rows < 2 ^ 31) (h2 : 0 ≤ cols) (h3 : cols < 2 ^ 31) :
    (rows * cols < 2 ^ 31 →
      elemCountSizeT rows cols = (rows * cols).toNat) ∧
    (2 ^ 31 ≤ rows * cols →
      wrap32 (rows * cols) ≠ rows * cols ∧
      elemCountSizeT rows cols ≠ (rows * cols).toNat) := by
  constructor
  · intro h
    exact elemCountSizeT_eq (mul_nonneg h0 h2) h
  · intro h
    obtain ⟨hw1, hw2⟩ := wrap32_bounds (rows * cols)
    have hub : rows * cols ≤ (2 ^ 31 - 1) * (2 ^ 31 - 1) :=
      mul_le_mul (by omega) (by omega) h2 (by omega)
    constructor
    · omega
    · rw [elemCountSizeT, toSizeT]
      omega

/-- Witness for C10 in the wrapping regime: 65536 x 65536 wraps to an
element count of 0. -/
theorem elemCount_int32_wrap_witness :
    ((0 : Int) ≤ 65536 ∧ (65536 : Int) < 2 ^ 31 ∧ (0 : Int) ≤ 65536 ∧
      (65536 : Int) < 2 ^ 31) ∧
    (((65536 : Int) * 65536 < 2 ^ 31 →
      elemCountSizeT 65536 65536 = ((65536 : Int) * 65536).toNat) ∧
    ((2 : Int) ^ 31 ≤ 65536 * 65536 →
      wrap32 ((65536 : Int) * 65536) ≠ 65536 * 65536 ∧
      elemCountSizeT 65536 65536 ≠ ((65536 : Int) * 65536).toNat)) :=
  ⟨⟨by decide, by decide, by decide, by decide⟩,
    elemCount_int32_wrap 65536 65536 (by decide) (by decide) (by decide)
      (by decide)⟩

/-- Witness for C1 at the spec's example CSV (rows = cols = 2): position
(1, 0) receives the rating of the line "1,0,4.0". -/
theorem fill_matrix_last_write_wins_witness :
    (envOk.csvLines ≠ [] ∧ (0 : Int) ≤ 1 ∧ (1 : Int) < 2 ∧ (0 : Int) ≤ 0 ∧
      (0 : Int) < 2 ∧ (2 : Int) * 2 < 2 ^ 31) ∧
    (∃ d : List ℚ,
      fill_matrix_from_csv true envOk.csvLines
          ⟨2, 2, List.replicate (elemCountSizeT 2 2) (0 : ℚ)⟩ 2 2 =
        .ok ⟨2, 2, d⟩ ∧
      d[((1 : Int) * 2 + 0).toNat]? =
        some (((((envOk.csvLines.drop 1).filterMap scanTriple).filter
            (fun t => decide (t.1 = (1 : Int) ∧ t.2.1 = (0 : Int)))).getLast?).elim
          0 (fun t => t.2.2))) :=
  ⟨⟨by decide, by decide, by decide, by decide, by decide, by decide⟩,
    fill_matrix_last_write_wins envOk.csvLines 2 2 1 0 (by decide) (by decide)
      (by decide) (by decide) (by decide) (by decide)⟩

/-- C3, counterexample: with K = 0 (and min(rows, cols) = 2) the driver
does not raise any failure — it invokes the external routine
`svds_C_dense` anyway and the process exits 0, because src/SVD/main.c
(and equally multi_threaded.c) contains no validation of K at all. -/
theorem rank_validation_missing_cex :
    envK0.K = 0 ∧ (svdMpiMain 0 envK0).svdsCalled = true ∧
    (svdMpiMain 0 envK0).exitCode = 0 := by decide

/-- C3, amended: the driver performs no rank validation whatsoever —
whenever the pipeline reaches the factorization step (valid usage, log
opened, allocation succeeded, CSV read), the external routine is invoked
for every K, including K = 0 and K > min(rows, cols), and no
FactorizationFailure is raised (the run exits 0). -/
theorem svds_called_for_every_rank (env : Env) (h5 : ¬env.argc < 5)
    (hlog : env.logOpens = true) (halloc : env.allocOk = true)
    (hcsv : env.csvOpens = true) (hne : env.csvLines ≠ []) :
    (svdMpiMain 0 env).svdsCalled = true ∧ (svdMpiMain 0 env).exitCode = 0 := by
  rcases hl : env.csvLines with _ | ⟨l, rest⟩
  · exact absurd hl hne
  rw [svdMpiMain_success env h5 hlog halloc hcsv l rest hl]
  exact ⟨rfl, rfl⟩

/-- Witness for the amended C3 at the K = 0 configuration. -/
theorem svds_called_for_every_rank_witness :
    (¬envK0.argc < 5 ∧ envK0.logOpens = true ∧ envK0.allocOk = true ∧
      envK0.csvOpens = true ∧ envK0.csvLines ≠ []) ∧
    ((svdMpiMain 0 envK0).svdsCalled = true ∧
      (svdMpiMain 0 envK0).exitCode = 0) :=
  ⟨⟨by decide, by decide, by decide, by decide, by decide⟩,
    svds_called_for_every_rank envK0 (by decide) (by decide) (by decide)
      (by decide) (by decide)⟩

/-- C4, counterexample: when the external routine produces no output
handles — the only failure signal its `void` interface can carry, since
`svds_C_dense` returns no status code — the driver does not discard
anything: it writes the results file (24 bytes: three empty records) and
the process exits 0. -/
theorem serialize_despite_failure_cex :
    envNullFactors.svdsU = none ∧ envNullFactors.svdsS = none ∧
    envNullFactors.svdsV = none ∧
    (svdMpiMain 0 envNullFactors).saved = true ∧
    (svdMpiMain 0 envNullFactors).outCreated = true ∧
    (svdMpiMain 0 envNullFactors).outBytes = some (List.replicate 24 0) ∧
    (svdMpiMain 0 envNullFactors).exitCode = 0 := by decide

/-- C4, amended: the external routine returns no status code, so the
driver cannot observe a failure; it unconditionally serializes whatever
output handles were produced — null handles are written as empty 0/0
records — and the process exits 0. -/
theorem serializer_runs_unconditionally (env : Env) (h5 : ¬env.argc < 5)
    (hlog : env.logOpens = true) (halloc : env.allocOk = true)
    (hcsv : env.csvOpens = true) (hne : env.csvLines ≠ [])
    (hout : env.outOpens = true) :
    (svdMpiMain 0 env).saved = true ∧
    (svdMpiMain 0 env).outBytes =
      some (save_matrices env.svdsU env.svdsS env.svdsV) ∧
    (svdMpiMain 0 env).exitCode = 0 := by
  rcases hl : env.csvLines with _ | ⟨l, rest⟩
  · exact absurd hl hne
  rw [svdMpiMain_success env h5 hlog halloc hcsv l rest hl]
  refine ⟨rfl, ?_, rfl⟩
  simp [hout]

/-- Witness for the amended C4 at the all-null-outputs configuration. -/
theorem serializer_runs_unconditionally_witness :
    (¬envNullFactors.argc < 5 ∧ envNullFactors.logOpens = true ∧
      envNullFactors.allocOk = true ∧ envNullFactors.csvOpens = true ∧
      envNullFactors.csvLines ≠ [] ∧ envNullFactors.outOpens = true) ∧
    ((svdMpiMain 0 envNullFactors).saved = true ∧
      (svdMpiMain 0 envNullFactors).outBytes =
        some (save_matrices envNullFactors.svdsU envNullFactors.svdsS
          envNullFactors.svdsV) ∧
      (svdMpiMain 0 envNullFactors).exitCode = 0) :=
  ⟨⟨by decide, by decide, by decide, by decide, by decide, by decide⟩,
    serializer_runs_unconditionally envNullFactors (by decide) (by decide)
      (by decide) (by decide) (by decide) (by decide)⟩

/-- C5, counterexample: with an unwritable results-file path (and
everything else healthy) the run suffers an I/O error — no output file is
created — yet the process exit code is 0, because `save_matrices` merely
prints to stderr and returns, and main's tail unconditionally returns 0. -/
theorem exit_zero_on_unwritable_output_cex :
    envOutUnwritable.outOpens = false ∧
    (svdMpiMain 0 envOutUnwritable).outCreated = false ∧
    (svdMpiMain 0 envOutUnwritable).exitCode = 0 := by decide

/-- C5, amended: the exit code is nonzero exactly on a usage error, a
log-file creation failure, an allocation failure, or a CSV read failure
(unreadable or empty input); an unwritable results-file path is only
reported and the process still exits 0, and a factorization failure is not
observable at all. -/
theorem exit_code_characterization (rank : Nat) (env : Env) :
    (svdMpiMain rank env).exitCode = 0 ↔
      ¬env.argc < 5 ∧ (rank ≠ 0 ∨
        (env.logOpens = true ∧ env.allocOk = true ∧ env.csvOpens = true ∧
          env.csvLines ≠ [])) := by
  by_cases h5 : env.argc < 5
  · rw [svdMpiMain_usage rank env h5]
    simp [h5]
  by_cases hr : rank = 0
  swap
  · rw [svdMpiMain_nonleader rank env h5 hr]
    simp [h5, hr]
  subst hr
  rcases hlog : env.logOpens with _ | _
  · rw [svdMpiMain_logfail env h5 hlog]
    simp [h5, hlog]
  rcases halloc : env.allocOk with _ | _
  · rw [svdMpiMain_allocfail env h5 hlog halloc]
    simp [h5, hlog, halloc]
  rcases hcsv : env.csvOpens with _ | _
  · rw [svdMpiMain_csvfail env h5 hlog halloc (Or.inl hcsv)]
    simp [h5, hlog, halloc, hcsv]
  rcases hl : env.csvLines with _ | ⟨l, rest⟩
  · rw [svdMpiMain_csvfail env h5 hlog halloc (Or.inr hl)]
    simp [h5, hlog, halloc, hcsv, hl]
  · rw [svdMpiMain_success env h5 hlog halloc hcsv l rest hl]
    simp [h5, hlog, halloc, hcsv, hl]

/-- C8: under a valid invocation of the message-passing profile, every
participant with nonzero rank performs no pipeline work (no ingest, no
factorization call, no serialization), creates neither the log file nor
the results file, and exits 0; and whatever the environment, any
participant that performs any stage or creates any file is participant 0. -/
theorem nonleader_does_nothing (rank : Nat) (env : Env)
    (h5 : ¬env.argc < 5) (hr : rank ≠ 0) :
    svdMpiMain rank env = ⟨0, false, false, false, false, false, none, []⟩ ∧
    ∀ (r : Nat) (e : Env),
      ((svdMpiMain r e).ingested = true ∨
        (svdMpiMain r e).svdsCalled = true ∨
        (svdMpiMain r e).saved = true ∨
        (svdMpiMain r e).logCreated = true ∨
        (svdMpiMain r e).outCreated = true) → r = 0 := by
  refine ⟨svdMpiMain_nonleader rank env h5 hr, fun r e h => ?_⟩
  by_contra hr0
  by_cases h5' : e.argc < 5
  · rw [svdMpiMain_usage r e h5'] at h
    simp at h
  · rw [svdMpiMain_nonleader r e h5' hr0] at h
    simp at h

/-- Witness for C8: participant 3 of a healthy 4-participant run. -/
theorem nonleader_does_nothing_witness :
    (¬envOk.argc < 5 ∧ (3 : Nat) ≠ 0) ∧
    (svdMpiMain 3 envOk = ⟨0, false, false, false, false, false, none, []⟩ ∧
    ∀ (r : Nat) (e : Env),
      ((svdMpiMain r e).ingested = true ∨
        (svdMpiMain r e).svdsCalled = true ∨
        (svdMpiMain r e).saved = true ∨
        (svdMpiMain r e).logCreated = true ∨
        (svdMpiMain r e).outCreated = true) → r = 0) :=
  ⟨⟨by decide, by decide⟩, nonleader_does_nothing 3 envOk (by decide)
    (by decide)⟩

/-- C9, counterexample: in src/SVD/main.c the log sink is not opened per
message — a healthy run opens it once (in truncating write mode, not
append), writes all six lines to the same handle across every phase, and
closes it only at the end, so its event trace is not a concatenation of
open-append/write-one-line/close blocks. -/
theorem log_held_across_phases_cex :
    perMessageScoped (svdMpiMain 0 envOk).logEvents = false ∧
    (svdMpiMain 0 envOk).logEvents =
      [.openWrite, .write msgHeader, .write msgCsvTime, .write msgSvdTime,
        .write msgSaveTime, .write msgTotalTime, .write msgDone, .close] := by
  decide

/-- C9, amended: only the shared-memory variant's `log_message`
(src/unnamed/part_004) opens the sink in append mode, writes exactly the
one message and closes it again before anything else — its trace is
per-message scoped — while the MPI variant (src/SVD/main.c) opens the log
once in write mode at startup, holds the handle across all phases and
closes it only at process end. -/
theorem log_message_scoped_mpi_log_held (msg : String) (env : Env)
    (h5 : ¬env.argc < 5) (hlog : env.logOpens = true)
    (halloc : env.allocOk = true) (hcsv : env.csvOpens = true)
    (hne : env.csvLines ≠ []) :
    log_message true msg = [.openAppend, .write msg, .close] ∧
    perMessageScoped (log_message true msg) = true ∧
    (svdMpiMain 0 env).logEvents =
      [.openWrite, .write msgHeader, .write msgCsvTime, .write msgSvdTime,
        .write msgSaveTime, .write msgTotalTime, .write msgDone, .close] := by
  rcases hl : env.csvLines with _ | ⟨l, rest⟩
  · exact absurd hl hne
  rw [svdMpiMain_success env h5 hlog halloc hcsv l rest hl]
  exact ⟨rfl, rfl, rfl⟩

/-- Witness for the amended C9 at a healthy run and the SVD timing
message. -/
theorem log_message_scoped_mpi_log_held_witness :
    (¬envOk.argc < 5 ∧ envOk.logOpens = true ∧ envOk.allocOk = true ∧
      envOk.csvOpens = true ∧ envOk.csvLines ≠ []) ∧
    (log_message true msgSvdTime = [.openAppend, .write msgSvdTime, .close] ∧
    perMessageScoped (log_message true msgSvdTime) = true ∧
    (svdMpiMain 0 envOk).logEvents =
      [.openWrite, .write msgHeader, .write msgCsvTime, .write msgSvdTime,
        .write msgSaveTime, .write msgTotalTime, .write msgDone, .close]) :=
  ⟨⟨by decide, by decide, by decide, by decide, by decide⟩,
    log_message_scoped_mpi_log_held msgSvdTime envOk (by decide) (by decide)
      (by decide) (by decide) (by decide)⟩
